import Mathlib

/-!
Shallow embedding of the sh library (package sh, file sh.go): shell
descriptors, argument normalization, command construction, and the
Run/Output entry points, together with proofs about the embedded
definitions.
-/

set_option autoImplicit false

/-- Embeds the Go interface Shell (sh.go lines 12-25) as a record of its three
methods: the executable name, the argument sequence placed before the script,
and the argument sequence placed after it. -/
structure Shell where
  name : String
  prefixArgs : List String
  suffixArgs : List String
  deriving DecidableEq, Repr

/-- Embeds the Go constructor Bash (sh.go lines 164-166 and 172-184): the
bash descriptor has Name "bash", Prefix ["-c"] and nil Suffix. -/
def Bash : Shell := { name := "bash", prefixArgs := ["-c"], suffixArgs := [] }

/-- Embeds the Go constructor Sh (sh.go lines 168-170 and 200-212): the sh
descriptor has Name "sh", Prefix ["-c"] and nil Suffix. -/
def Sh : Shell := { name := "sh", prefixArgs := ["-c"], suffixArgs := [] }

/-- Embeds the Go struct Arg (sh.go lines 155-158). -/
structure Arg where
  Key : String
  Value : String
  deriving DecidableEq, Repr

/-- Embeds the Go method Arg.String (sh.go lines 160-162). -/
def Arg.str (kv : Arg) : String := kv.Key ++ "=" ++ kv.Value

/-- One element of the variadic args ...any list of Run/Output/command. A
non-Arg value is kept as its default textual rendering (what fmt.Sprintf with
the %v verb yields for it), which is the only use the code makes of such a
value. -/
inductive ArgItem where
  | pair (kv : Arg)
  | plain (txt : String)
  deriving DecidableEq, Repr

/-- Stringification of one args element by fmt.Sprintf %v: an Arg renders
through its String method (sh.go lines 160-162), a plain value through its
default rendering. -/
def ArgItem.str : ArgItem → String
  | .pair kv => kv.str
  | .plain s => s

/-- Embeds the argument loop of Environment.command (sh.go lines 136-149):
a left-to-right scan where an Arg is emitted as its own entry via Arg.String
and the scan advances by one; a plain item sitting in the last position aborts
with the error; otherwise a plain item is the key, the following item
(stringified) is the value, one entry key=value is emitted and the scan
advances by two. On the error path the partially built entries are discarded,
as the Go code returns nil for the whole command. -/
def normalizeArgs : List ArgItem → Except String (List String)
  | [] => .ok []
  | .pair kv :: rest => (normalizeArgs rest).map (fun tail => kv.str :: tail)
  | [.plain _] => .error "invalid number of arguments"
  | .plain k :: v :: rest =>
      (normalizeArgs rest).map (fun tail => (k ++ "=" ++ v.str) :: tail)

/-- Spec-side definition (spec sections 4.1 and 8) of the normalizer's output
on a list of plain items taken two at a time: one key=value entry per pair of
consecutive items, in input order. Used to state the claim about even-length
plain argument lists. -/
def specPlainPairs : List String → List String
  | k :: v :: rest => (k ++ "=" ++ v) :: specPlainPairs rest
  | _ => []

/-- Position-based predicate taken from the claim's wording: the
left-to-right pairing scan of the argument loop reaches a plain
(non-ArgumentPair) item sitting in the last position of the list. -/
def scanHitsTrailingPlain : List ArgItem → Bool
  | [] => false
  | .pair _ :: rest => scanHitsTrailingPlain rest
  | [.plain _] => true
  | .plain _ :: _ :: rest => scanHitsTrailingPlain rest

/-- Spec-side description, for the claim about mixing, of a well-formed mixed
argument list: the items fall into groups, each group either a single Arg item
or a complete plain key/value pair of adjacent items. -/
inductive ArgGroup where
  | one (kv : Arg)
  | two (k v : String)
  deriving DecidableEq, Repr

/-- Flattening of grouped arguments back into the heterogeneous item list
that Run/Output receive. -/
def flattenGroups : List ArgGroup → List ArgItem
  | [] => []
  | .one kv :: gs => ArgItem.pair kv :: flattenGroups gs
  | .two k v :: gs => ArgItem.plain k :: ArgItem.plain v :: flattenGroups gs

/-- Spec-side entry that each group contributes to the environment vector. -/
def groupEntry : ArgGroup → String
  | .one kv => kv.str
  | .two k v => k ++ "=" ++ v

/-- Embeds the Go struct Environment (sh.go lines 55-65). The io.Writer sinks
are values of an abstract type ω (a nil writer is none); the Go map env is
kept as an association list whose order stands for one iteration order of the
map (no claim depends on that order). -/
structure Environment (ω : Type) where
  shell : Shell
  stdout : Option ω
  stderr : Option ω
  env : List (String × String)
  workingDir : String
  argBuffer : List String
  deriving DecidableEq, Repr

variable {ω : Type}

/-- Embeds the option WithStdout (sh.go lines 29-33). -/
def WithStdout (w : ω) : Environment ω → Environment ω :=
  fun e => { e with stdout := some w }

/-- Embeds the option WithStderr (sh.go lines 35-39). -/
def WithStderr (w : ω) : Environment ω → Environment ω :=
  fun e => { e with stderr := some w }

/-- Embeds the option WithEnv (sh.go lines 41-45). -/
def WithEnv (m : List (String × String)) : Environment ω → Environment ω :=
  fun e => { e with env := m }

/-- Embeds the option WithWorkingDir (sh.go lines 47-51). -/
def WithWorkingDir (dir : String) : Environment ω → Environment ω :=
  fun e => { e with workingDir := dir }

/-- Embeds NewEnvironment (sh.go lines 67-77): the record starts at the Go
zero values (nil sinks, nil map, empty workingDir, nil buffer) and the options
are applied in order. -/
def NewEnvironment (shell : Shell) (opts : List (Environment ω → Environment ω)) :
    Environment ω :=
  opts.foldl (fun e opt => opt e)
    { shell := shell, stdout := none, stderr := none, env := [],
      workingDir := "", argBuffer := [] }

/-- Embeds the subset of exec.Cmd that Environment.command populates
(sh.go lines 121-150): the executable name and the variadic argument vector
handed to exec.CommandContext, Dir (the Go zero value "" meaning inherit is
kept as none), Env, and the two stream sinks. The cancellation context is
threaded opaquely to the collaborator and never inspected by this package, so
it is not recorded. -/
structure Cmd (ω : Type) where
  name : String
  args : List String
  dir : Option String
  env : List String
  stdout : Option ω
  stderr : Option ω
  deriving DecidableEq, Repr

/-- Embeds Environment.command (sh.go lines 114-153). The method mutates
e.argBuffer by appending Prefix, the script, and a non-empty Suffix; the
Environment in the returned pair carries that mutation (the reset is done by
the callers' deferred cleanup, not by this method, on the error path too). -/
def Environment.command (e : Environment ω) (osEnviron : List String)
    (script : String) (args : List ArgItem) :
    Environment ω × Except String (Cmd ω) :=
  let buf := (e.argBuffer ++ e.shell.prefixArgs) ++ [script]
  let buf := if e.shell.suffixArgs.length > 0 then buf ++ e.shell.suffixArgs else buf
  let e' := { e with argBuffer := buf }
  let envs := osEnviron
  let envs := if e.env.length > 0
              then envs ++ (e.env.map fun kv => kv.1 ++ "=" ++ kv.2)
              else envs
  match normalizeArgs args with
  | .error msg => (e', .error msg)
  | .ok pairs =>
      (e', .ok { name := e.shell.name, args := buf,
                 dir := if e.workingDir ≠ "" then some e.workingDir else none,
                 env := envs ++ pairs,
                 stdout := e.stdout, stderr := e.stderr })

/-- Embeds Environment.cleanup (sh.go lines 110-112): the scratch argument
buffer is truncated to length zero. -/
def Environment.cleanup (e : Environment ω) : Environment ω :=
  { e with argBuffer := [] }

/-- Modelled from the spec: the process-execution collaborator (spec section
6) lives outside this repository. This record is the observable behavior of
the child process for one invocation: the bytes it writes on each stream and
the error, if any, that the collaborator reports for its termination (none
meaning exit status zero). -/
structure ProcBehavior where
  out : String
  err : String
  exitErr : Option String
  deriving DecidableEq, Repr

/-- Observable result of handing one built invocation to the collaborator:
what was written to which configured sink, what was captured and returned,
and the reported error. -/
structure ExecResult (ω : Type) where
  routedStdout : Option (ω × String)
  routedStderr : Option (ω × String)
  captured : Option String
  error : Option String
  deriving DecidableEq, Repr

/-- Modelled from the spec: plain execution by the collaborator (cmd.Run,
called at sh.go line 96). Per the documented contract of the platform
primitive the repository passes through to (Go os/exec), the child's stdout
and stderr bytes are written to the attached sinks — discarded when a sink is
unset — and the termination error is returned as is. -/
def Cmd.Run (c : Cmd ω) (p : ProcBehavior) : ExecResult ω :=
  { routedStdout := c.stdout.map (fun w => (w, p.out)),
    routedStderr := c.stderr.map (fun w => (w, p.err)),
    captured := none,
    error := p.exitErr }

/-- Modelled from the spec: capturing execution by the collaborator
(cmd.Output, called at sh.go line 107). The documented contract of the
platform primitive (Go os/exec) demands that no stdout sink be attached
already: in that case it reports the error "exec: Stdout already set" without
starting the child. Otherwise it attaches its own capture buffer, runs the
child, routes stderr to the attached sink, and returns the captured stdout
bytes together with the termination error. (When the stderr sink is unset the
primitive attaches the stderr text to the returned error value instead; no
claim depends on that detail and it is not recorded.) -/
def Cmd.Output (c : Cmd ω) (p : ProcBehavior) : ExecResult ω :=
  if c.stdout.isSome then
    { routedStdout := none, routedStderr := none, captured := none,
      error := some "exec: Stdout already set" }
  else
    { routedStdout := none,
      routedStderr := c.stderr.map (fun w => (w, p.err)),
      captured := some p.out,
      error := p.exitErr }

/-- Observable result of one whole Run or Output call: either command
construction failed (no process was spawned) or the built invocation was
executed by the collaborator. -/
inductive RunOutcome (ω : Type) where
  | constructionError (msg : String)
  | executed (res : ExecResult ω)
  deriving DecidableEq, Repr

/-- Embeds Environment.Run (sh.go lines 88-97): build the command, then hand
it to the collaborator, with the deferred cleanup resetting the scratch
buffer on every exit path. The oracle gives each invocation's child behavior;
the returned pair is the Environment after the call and the outcome. -/
def Environment.Run (e : Environment ω) (osEnviron : List String)
    (oracle : Cmd ω → ProcBehavior) (script : String) (args : List ArgItem) :
    Environment ω × RunOutcome ω :=
  match e.command osEnviron script args with
  | (e', .error msg) => (e'.cleanup, .constructionError msg)
  | (e', .ok c) => (e'.cleanup, .executed (c.Run (oracle c)))

/-- Embeds Environment.Output (sh.go lines 99-108): like Run but the built
invocation is handed to the collaborator's capturing execution. -/
def Environment.Output (e : Environment ω) (osEnviron : List String)
    (oracle : Cmd ω → ProcBehavior) (script : String) (args : List ArgItem) :
    Environment ω × RunOutcome ω :=
  match e.command osEnviron script args with
  | (e', .error msg) => (e'.cleanup, .constructionError msg)
  | (e', .ok c) => (e'.cleanup, .executed (c.Output (oracle c)))

/-- Embeds the package-level variable defaultEnvironment (sh.go line 186) at
its initial value: a bash-backed Environment built with no options. -/
def defaultEnvironment (ω : Type) : Environment ω := NewEnvironment Bash []

/-- Embeds SetDefaultEnvironment (sh.go lines 188-190): the currently
installed default (first argument) is replaced wholesale by the given
Environment, which becomes the newly installed default. -/
def SetDefaultEnvironment (_current next : Environment ω) : Environment ω := next

/-- Embeds the free function Run (sh.go lines 192-194): it delegates to the
currently installed default Environment d; d's updated state is returned
together with the outcome. -/
def Run (d : Environment ω) (osEnviron : List String)
    (oracle : Cmd ω → ProcBehavior) (script : String) (args : List ArgItem) :
    Environment ω × RunOutcome ω :=
  d.Run osEnviron oracle script args

/-- Embeds the free function Output (sh.go lines 196-198): it delegates to
the currently installed default Environment d. -/
def Output (d : Environment ω) (osEnviron : List String)
    (oracle : Cmd ω → ProcBehavior) (script : String) (args : List ArgItem) :
    Environment ω × RunOutcome ω :=
  d.Output osEnviron oracle script args

/-- Shorthand for the scratch buffer contents after command has appended the
shell's Prefix, the script, and a non-empty Suffix (sh.go lines 115-119). -/
def builtBuf (e : Environment ω) (script : String) : List String :=
  if e.shell.suffixArgs.length > 0
  then ((e.argBuffer ++ e.shell.prefixArgs) ++ [script]) ++ e.shell.suffixArgs
  else (e.argBuffer ++ e.shell.prefixArgs) ++ [script]

/-- Shorthand for the environment vector before the argument pairs: the
inherited OS environment, extended with the extraEnv entries when the map is
non-empty (sh.go lines 129-134). -/
def builtEnvBase (e : Environment ω) (osEnviron : List String) : List String :=
  if e.env.length > 0
  then osEnviron ++ (e.env.map fun kv => kv.1 ++ "=" ++ kv.2)
  else osEnviron

/-- Shorthand for the invocation record that a successful command
construction returns (sh.go lines 121-150). -/
def builtCmd (e : Environment ω) (osEnviron : List String) (script : String)
    (pairs : List String) : Cmd ω :=
  { name := e.shell.name, args := builtBuf e script,
    dir := if e.workingDir ≠ "" then some e.workingDir else none,
    env := builtEnvBase e osEnviron ++ pairs,
    stdout := e.stdout, stderr := e.stderr }

theorem command_err (e : Environment ω) (o : List String) (s : String)
    (a : List ArgItem) (m : String) (hn : normalizeArgs a = .error m) :
    e.command o s a = ({ e with argBuffer := builtBuf e s }, .error m) := by
  simp only [Environment.command, hn, builtBuf]

theorem command_ok (e : Environment ω) (o : List String) (s : String)
    (a : List ArgItem) (pairs : List String) (hn : normalizeArgs a = .ok pairs) :
    e.command o s a =
      ({ e with argBuffer := builtBuf e s }, .ok (builtCmd e o s pairs)) := by
  simp only [Environment.command, hn, builtBuf, builtEnvBase, builtCmd]

theorem command_fst (e : Environment ω) (o : List String) (s : String)
    (a : List ArgItem) :
    (e.command o s a).1 = { e with argBuffer := builtBuf e s } := by
  cases hn : normalizeArgs a with
  | error m => rw [command_err e o s a m hn]
  | ok pairs => rw [command_ok e o s a pairs hn]

theorem command_snd_ok_inv (e : Environment ω) (o : List String) (s : String)
    (a : List ArgItem) (c : Cmd ω) (hc : (e.command o s a).2 = .ok c) :
    ∃ pairs, normalizeArgs a = .ok pairs ∧ c = builtCmd e o s pairs := by
  cases hn : normalizeArgs a with
  | error m =>
      rw [command_err e o s a m hn] at hc
      exact absurd hc (by simp)
  | ok pairs =>
      rw [command_ok e o s a pairs hn] at hc
      exact ⟨pairs, rfl, by injection hc with h; exact h.symm⟩

theorem Run_err (e : Environment ω) (o : List String)
    (oracle : Cmd ω → ProcBehavior) (s : String) (a : List ArgItem) (m : String)
    (hn : normalizeArgs a = .error m) :
    e.Run o oracle s a = ({ e with argBuffer := [] }, .constructionError m) := by
  simp only [Environment.Run, command_err e o s a m hn, Environment.cleanup]

theorem Run_ok (e : Environment ω) (o : List String)
    (oracle : Cmd ω → ProcBehavior) (s : String) (a : List ArgItem)
    (pairs : List String) (hn : normalizeArgs a = .ok pairs) :
    e.Run o oracle s a =
      ({ e with argBuffer := [] },
       .executed ((builtCmd e o s pairs).Run (oracle (builtCmd e o s pairs)))) := by
  simp only [Environment.Run, command_ok e o s a pairs hn, Environment.cleanup]

theorem Output_err (e : Environment ω) (o : List String)
    (oracle : Cmd ω → ProcBehavior) (s : String) (a : List ArgItem) (m : String)
    (hn : normalizeArgs a = .error m) :
    e.Output o oracle s a = ({ e with argBuffer := [] }, .constructionError m) := by
  simp only [Environment.Output, command_err e o s a m hn, Environment.cleanup]

theorem Output_ok (e : Environment ω) (o : List String)
    (oracle : Cmd ω → ProcBehavior) (s : String) (a : List ArgItem)
    (pairs : List String) (hn : normalizeArgs a = .ok pairs) :
    e.Output o oracle s a =
      ({ e with argBuffer := [] },
       .executed ((builtCmd e o s pairs).Output (oracle (builtCmd e o s pairs)))) := by
  simp only [Environment.Output, command_ok e o s a pairs hn, Environment.cleanup]

theorem Run_fst (e : Environment ω) (o : List String)
    (oracle : Cmd ω → ProcBehavior) (s : String) (a : List ArgItem) :
    (e.Run o oracle s a).1 = { e with argBuffer := [] } := by
  cases hn : normalizeArgs a with
  | error m => rw [Run_err e o oracle s a m hn]
  | ok pairs => rw [Run_ok e o oracle s a pairs hn]

theorem Output_fst (e : Environment ω) (o : List String)
    (oracle : Cmd ω → ProcBehavior) (s : String) (a : List ArgItem) :
    (e.Output o oracle s a).1 = { e with argBuffer := [] } := by
  cases hn : normalizeArgs a with
  | error m => rw [Output_err e o oracle s a m hn]
  | ok pairs => rw [Output_ok e o oracle s a pairs hn]

theorem builtBuf_empty (e : Environment ω) (s : String) (hb : e.argBuffer = []) :
    builtBuf e s = e.shell.prefixArgs ++ [s] ++ e.shell.suffixArgs := by
  by_cases hsuf : e.shell.suffixArgs.length > 0
  · simp [builtBuf, hsuf, hb, List.append_assoc]
  · have h0 : e.shell.suffixArgs = [] :=
      List.length_eq_zero.mp (Nat.eq_zero_of_not_pos hsuf)
    simp [builtBuf, hsuf, hb, h0]

theorem command_args_empty_buffer (e : Environment ω) (o : List String)
    (s : String) (a : List ArgItem) (c : Cmd ω) (hb : e.argBuffer = [])
    (hc : (e.command o s a).2 = .ok c) :
    c.args = e.shell.prefixArgs ++ [s] ++ e.shell.suffixArgs := by
  obtain ⟨pairs, hn, hrec⟩ := command_snd_ok_inv e o s a c hc
  rw [hrec]
  exact builtBuf_empty e s hb

theorem normalizeArgs_err_of_scan :
    ∀ a : List ArgItem, scanHitsTrailingPlain a = true →
      normalizeArgs a = .error "invalid number of arguments"
  | [], h => by exact absurd h (by decide)
  | .pair kv :: rest, h => by
      have ih := normalizeArgs_err_of_scan rest
        (by simpa [scanHitsTrailingPlain] using h)
      simp [normalizeArgs, ih, Except.map]
  | [.plain k], _ => rfl
  | .plain k :: v :: rest, h => by
      have ih := normalizeArgs_err_of_scan rest
        (by simpa [scanHitsTrailingPlain] using h)
      simp [normalizeArgs, ih, Except.map]

theorem normalizeArgs_plain_even :
    ∀ l : List String, l.length % 2 = 0 →
      normalizeArgs (l.map ArgItem.plain) = .ok (specPlainPairs l) ∧
      (specPlainPairs l).length = l.length / 2
  | [], _ => ⟨rfl, rfl⟩
  | [k], h => by simp at h
  | k :: v :: rest, h => by
      have hr : rest.length % 2 = 0 := by
        simp only [List.length_cons] at h
        omega
      obtain ⟨h1, h2⟩ := normalizeArgs_plain_even rest hr
      refine ⟨?_, ?_⟩
      · simp [normalizeArgs, specPlainPairs, h1, ArgItem.str, Except.map]
      · simp only [specPlainPairs, List.length_cons, h2]
        omega

/-- C1 (amended): for every Environment whose stdout sink is unset, and every
script and argument list that normalizes successfully, Output behaves
identically to Run except that the child's stdout is captured and returned
instead of routed, while stderr still routes to the configured stderr sink
and the reported error is the same; when a stdout sink is configured, Output
instead fails with the collaborator's error "exec: Stdout already set"
without routing or capturing anything. -/
theorem output_captures_stdout_when_sink_unset (e : Environment ω)
    (o : List String) (oracle : Cmd ω → ProcBehavior) (s : String)
    (a : List ArgItem) (pairs : List String) (hn : normalizeArgs a = .ok pairs) :
    (e.stdout = none →
      (e.Output o oracle s a).1 = (e.Run o oracle s a).1 ∧
      (e.Run o oracle s a).2 =
        .executed ((builtCmd e o s pairs).Run (oracle (builtCmd e o s pairs))) ∧
      (e.Output o oracle s a).2 =
        .executed
          { routedStdout := none,
            routedStderr :=
              ((builtCmd e o s pairs).Run (oracle (builtCmd e o s pairs))).routedStderr,
            captured := some (oracle (builtCmd e o s pairs)).out,
            error :=
              ((builtCmd e o s pairs).Run (oracle (builtCmd e o s pairs))).error }) ∧
    (∀ w : ω, e.stdout = some w →
      (e.Output o oracle s a).2 =
        .executed { routedStdout := none, routedStderr := none, captured := none,
                    error := some "exec: Stdout already set" }) := by
  constructor
  · intro hno
    rw [Output_ok e o oracle s a pairs hn, Run_ok e o oracle s a pairs hn]
    refine ⟨rfl, rfl, ?_⟩
    simp [Cmd.Output, Cmd.Run, builtCmd, hno]
  · intro w hw
    rw [Output_ok e o oracle s a pairs hn]
    simp [Cmd.Output, builtCmd, hw]

/-- Witness for the amended C1 at a concrete input: a bash Environment with no
stdout sink; Output captures the child's stdout bytes and reports success. -/
theorem output_captures_stdout_when_sink_unset_witness :
    ((NewEnvironment Bash [] : Environment Unit).Output []
        (fun _ => { out := "hi", err := "", exitErr := none }) "echo hi" []).2 =
      .executed { routedStdout := none, routedStderr := none,
                  captured := some "hi", error := none } :=
  ((output_captures_stdout_when_sink_unset (NewEnvironment Bash []) []
      (fun _ => { out := "hi", err := "", exitErr := none }) "echo hi" [] []
      rfl).1 rfl).2.2

/-- C1 counterexample: on an Environment that does have a configured stdout
sink, Run executes the child and succeeds while Output aborts with the
collaborator's error, captures nothing, and routes nothing — so Output does
not behave identically to Run with stdout captured, refuting the claim for
Environments with a configured stdout sink. -/
theorem output_with_stdout_sink_fails :
    ((NewEnvironment Bash [WithStdout ()] : Environment Unit).Run []
        (fun _ => { out := "hi", err := "", exitErr := none }) "echo hi" []).2 =
      .executed { routedStdout := some ((), "hi"), routedStderr := none,
                  captured := none, error := none } ∧
    ((NewEnvironment Bash [WithStdout ()] : Environment Unit).Output []
        (fun _ => { out := "hi", err := "", exitErr := none }) "echo hi" []).2 =
      .executed { routedStdout := none, routedStderr := none, captured := none,
                  error := some "exec: Stdout already set" } ∧
    ((NewEnvironment Bash [WithStdout ()] : Environment Unit).Output []
        (fun _ => { out := "hi", err := "", exitErr := none }) "echo hi" []).2 ≠
      .executed { routedStdout := none, routedStderr := none,
                  captured := some "hi", error := none } :=
  ⟨rfl, rfl, by decide⟩

/-- C2: whenever the left-to-right pairing scan reaches a plain item in the
last position, command construction fails with exactly the message "invalid
number of arguments", and Run and Output return that construction error for
every possible collaborator, i.e. without spawning any process. -/
theorem trailing_plain_aborts_construction (e : Environment ω)
    (o : List String) (s : String) (a : List ArgItem)
    (h : scanHitsTrailingPlain a = true) :
    (e.command o s a).2 = .error "invalid number of arguments" ∧
    ∀ oracle : Cmd ω → ProcBehavior,
      (e.Run o oracle s a).2 = .constructionError "invalid number of arguments" ∧
      (e.Output o oracle s a).2 = .constructionError "invalid number of arguments" := by
  have hn := normalizeArgs_err_of_scan a h
  refine ⟨?_, fun oracle => ⟨?_, ?_⟩⟩
  · rw [command_err e o s a _ hn]
  · rw [Run_err e o oracle s a _ hn]
  · rw [Output_err e o oracle s a _ hn]

/-- Witness for C2 at a concrete input: a single unpaired plain item. -/
theorem trailing_plain_aborts_construction_witness :
    scanHitsTrailingPlain [ArgItem.plain "X"] = true ∧
    ((NewEnvironment Bash [] : Environment Unit).Run []
        (fun _ => { out := "", err := "", exitErr := none }) "echo"
        [ArgItem.plain "X"]).2 =
      .constructionError "invalid number of arguments" :=
  ⟨rfl,
   ((trailing_plain_aborts_construction (NewEnvironment Bash [] : Environment Unit)
       [] "echo" [ArgItem.plain "X"] rfl).2
     (fun _ => { out := "", err := "", exitErr := none })).1⟩

/-- C3: after any Run or Output call — whether construction succeeded or
failed — the Environment's scratch argument buffer is empty, and the
invocation built by any subsequent call on the returned Environment contains
only that call's own entries (the shell's Prefix, its script, the shell's
Suffix), never an argument-vector entry left over from the earlier call. -/
theorem scratch_buffer_reset_and_no_leak (e : Environment ω) (o : List String)
    (oracle : Cmd ω → ProcBehavior) (s : String) (a : List ArgItem) :
    ((e.Run o oracle s a).1.argBuffer = [] ∧
     (e.Output o oracle s a).1.argBuffer = []) ∧
    ∀ (o2 : List String) (s2 : String) (a2 : List ArgItem) (c2 : Cmd ω),
      ((((e.Run o oracle s a).1.command o2 s2 a2).2 = .ok c2 →
         c2.args = e.shell.prefixArgs ++ [s2] ++ e.shell.suffixArgs) ∧
       (((e.Output o oracle s a).1.command o2 s2 a2).2 = .ok c2 →
         c2.args = e.shell.prefixArgs ++ [s2] ++ e.shell.suffixArgs)) := by
  refine ⟨⟨?_, ?_⟩, ?_⟩
  · rw [Run_fst]
  · rw [Output_fst]
  · intro o2 s2 a2 c2
    constructor
    · intro hc2
      rw [Run_fst] at hc2
      exact command_args_empty_buffer { e with argBuffer := [] } o2 s2 a2 c2 rfl hc2
    · intro hc2
      rw [Output_fst] at hc2
      exact command_args_empty_buffer { e with argBuffer := [] } o2 s2 a2 c2 rfl hc2

/-- Witness for C3 at a concrete input: after a first Run with arguments, the
buffer is empty and a second construction carries only its own entries. -/
theorem scratch_buffer_reset_and_no_leak_witness :
    ((NewEnvironment Bash [] : Environment Unit).Run []
        (fun _ => { out := "", err := "", exitErr := none }) "echo A"
        [ArgItem.plain "A", ArgItem.plain "1"]).1.argBuffer = [] ∧
    ({ name := "bash", args := ["-c", "pwd"], dir := none, env := [],
       stdout := none, stderr := none } : Cmd Unit).args =
      Bash.prefixArgs ++ ["pwd"] ++ Bash.suffixArgs :=
  ⟨(scratch_buffer_reset_and_no_leak (NewEnvironment Bash [] : Environment Unit)
      [] (fun _ => { out := "", err := "", exitErr := none }) "echo A"
      [ArgItem.plain "A", ArgItem.plain "1"]).1.1,
   ((scratch_buffer_reset_and_no_leak (NewEnvironment Bash [] : Environment Unit)
       [] (fun _ => { out := "", err := "", exitErr := none }) "echo A"
       [ArgItem.plain "A", ArgItem.plain "1"]).2 [] "pwd" []
     { name := "bash", args := ["-c", "pwd"], dir := none, env := [],
       stdout := none, stderr := none }).1 rfl⟩

/-- C4: every even-length argument list of plain items normalizes
successfully to exactly half as many key=value entries, in input order, each
entry pairing two consecutive items. -/
theorem even_plain_list_normalizes (l : List String) (h : l.length % 2 = 0) :
    normalizeArgs (l.map ArgItem.plain) = .ok (specPlainPairs l) ∧
    (specPlainPairs l).length = l.length / 2 :=
  normalizeArgs_plain_even l h

/-- Witness for C4 at a concrete input: four plain items give two entries. -/
theorem even_plain_list_normalizes_witness :
    normalizeArgs
        [ArgItem.plain "A", ArgItem.plain "1", ArgItem.plain "B",
         ArgItem.plain "2"] = .ok ["A=1", "B=2"] ∧
    (specPlainPairs ["A", "1", "B", "2"]).length = 2 :=
  even_plain_list_normalizes ["A", "1", "B", "2"] (by decide)

/-- C5: on every successful construction the invocation's environment vector
is the inherited OS environment, then one key=value entry per extraEnv
mapping entry, then the normalized argument pairs, in that order; the length
equation shows that duplicate keys are never deduplicated. -/
theorem env_vector_shape (e : Environment ω) (o : List String) (s : String)
    (a : List ArgItem) (pairs : List String) (c : Cmd ω)
    (hn : normalizeArgs a = .ok pairs) (hc : (e.command o s a).2 = .ok c) :
    c.env = o ++ (e.env.map fun kv => kv.1 ++ "=" ++ kv.2) ++ pairs ∧
    c.env.length = o.length + e.env.length + pairs.length := by
  obtain ⟨pairs', hn', hrec⟩ := command_snd_ok_inv e o s a c hc
  rw [hn] at hn'
  injection hn' with hp
  subst hp
  subst hrec
  constructor
  · show builtEnvBase e o ++ pairs = _
    by_cases he : e.env.length > 0
    · simp [builtEnvBase, he, List.append_assoc]
    · have h0 : e.env = [] :=
        List.length_eq_zero.mp (Nat.eq_zero_of_not_pos he)
      simp [builtEnvBase, he, h0]
  · show (builtEnvBase e o ++ pairs).length = _
    by_cases he : e.env.length > 0
    · simp [builtEnvBase, he]
      omega
    · have h0 : e.env = [] :=
        List.length_eq_zero.mp (Nat.eq_zero_of_not_pos he)
      simp [builtEnvBase, he, h0]

/-- Witness for C5 at a concrete input with the same key three times: once in
the OS environment, once in extraEnv, once in the arguments — all three
entries survive, none is deduplicated. -/
theorem env_vector_shape_witness :
    ({ name := "bash", args := ["-c", "env"], dir := none,
       env := ["K=a", "K=b", "K=c"], stdout := none, stderr := none } :
        Cmd Unit).env =
      ["K=a"] ++ ["K=b"] ++ ["K=c"] ∧
    ({ name := "bash", args := ["-c", "env"], dir := none,
       env := ["K=a", "K=b", "K=c"], stdout := none, stderr := none } :
        Cmd Unit).env.length = 3 :=
  env_vector_shape
    (NewEnvironment Bash [WithEnv [("K", "b")]] : Environment Unit)
    ["K=a"] "env" [ArgItem.pair { Key := "K", Value := "c" }] ["K=c"]
    { name := "bash", args := ["-c", "env"], dir := none,
      env := ["K=a", "K=b", "K=c"], stdout := none, stderr := none }
    rfl rfl

/-- C6 counterexample: in the mixed list [plain "k", Arg("K","V")] the
ArgumentPair is not emitted as its own key=value entry "K=V"; it is consumed
as the value of the neighboring plain key, refuting the claim that in every
mixed argument list every ArgumentPair item is emitted directly as its own
entry and advances the scan by one. -/
theorem pair_after_plain_key_not_emitted_alone :
    normalizeArgs [ArgItem.plain "k", ArgItem.pair { Key := "K", Value := "V" }] =
      .ok ["k=K=V"] ∧
    ¬ ("K=V" ∈ ["k=K=V"]) :=
  ⟨rfl, by decide⟩

/-- C6 (amended): for every argument list in which the plain items occur as
adjacent key/value pairs, mixed with ArgumentPair items in any order,
normalization succeeds and emits exactly one entry per item group in input
order — each ArgumentPair its own key=value entry, consuming no neighboring
item, and each plain pair its key=value entry; moreover whenever the scan's
current item is an ArgumentPair it is emitted directly and the scan advances
by one, leaving the remaining items to be processed independently. An
ArgumentPair that instead sits in the value position of an unpaired plain key
is consumed as that key's value (see the claim about that case). -/
theorem pair_items_emitted_independently :
    (∀ gs : List ArgGroup,
      normalizeArgs (flattenGroups gs) = .ok (gs.map groupEntry)) ∧
    (∀ (kv : Arg) (rest : List ArgItem),
      normalizeArgs (ArgItem.pair kv :: rest) =
        (normalizeArgs rest).map (fun tail => kv.str :: tail)) := by
  constructor
  · intro gs
    induction gs with
    | nil => rfl
    | cons g gs ih =>
        cases g with
        | one kv =>
            simp [flattenGroups, normalizeArgs, groupEntry, ih, Except.map]
        | two k v =>
            simp [flattenGroups, normalizeArgs, groupEntry, ih, Except.map,
                  ArgItem.str]
  · intro kv rest
    rfl

/-- C7: for every Environment whose scratch buffer is at its rest state, a
successfully built invocation names the shell's executable and its argument
vector is exactly the shell's Prefix, then the literal script, then the
shell's Suffix; the two built-in descriptors both use the single prefix
argument "-c" and an empty suffix and differ only in executable name. -/
theorem invocation_arg_vector_shape (e : Environment ω) (o : List String)
    (s : String) (a : List ArgItem) (c : Cmd ω) (hb : e.argBuffer = [])
    (hc : (e.command o s a).2 = .ok c) :
    (c.name = e.shell.name ∧
     c.args = e.shell.prefixArgs ++ [s] ++ e.shell.suffixArgs) ∧
    (Bash.name = "bash" ∧ Sh.name = "sh" ∧
     Bash.prefixArgs = ["-c"] ∧ Sh.prefixArgs = ["-c"] ∧
     Bash.suffixArgs = [] ∧ Sh.suffixArgs = []) := by
  obtain ⟨pairs, hn, hrec⟩ := command_snd_ok_inv e o s a c hc
  refine ⟨⟨by rw [hrec]; rfl, ?_⟩, rfl, rfl, rfl, rfl, rfl, rfl⟩
  rw [hrec]
  exact builtBuf_empty e s hb

/-- Witness for C7 at a concrete input: the sh descriptor with script "ls". -/
theorem invocation_arg_vector_shape_witness :
    (({ name := "sh", args := ["-c", "ls"], dir := none, env := [],
        stdout := none, stderr := none } : Cmd Unit).name = Sh.name ∧
     ({ name := "sh", args := ["-c", "ls"], dir := none, env := [],
        stdout := none, stderr := none } : Cmd Unit).args =
       Sh.prefixArgs ++ ["ls"] ++ Sh.suffixArgs) ∧
    (Bash.name = "bash" ∧ Sh.name = "sh" ∧
     Bash.prefixArgs = ["-c"] ∧ Sh.prefixArgs = ["-c"] ∧
     Bash.suffixArgs = [] ∧ Sh.suffixArgs = []) :=
  invocation_arg_vector_shape (NewEnvironment Sh [] : Environment Unit) []
    "ls" []
    { name := "sh", args := ["-c", "ls"], dir := none, env := [],
      stdout := none, stderr := none }
    rfl rfl

/-- C8: the free Run/Output functions delegate to the currently installed
default Environment; the initial default is bash-backed with no sinks, no
extra environment and no working directory; SetDefaultEnvironment replaces
the installed instance wholesale, with no merge of the prior configuration,
and subsequent free-function calls use the newly installed instance. In this
pure embedding every independently constructed Environment is a separate
value that the replacement cannot touch. -/
theorem default_environment_facade (ω : Type) :
    ((defaultEnvironment ω).shell = Bash ∧ (defaultEnvironment ω).stdout = none ∧
     (defaultEnvironment ω).stderr = none ∧ (defaultEnvironment ω).env = [] ∧
     (defaultEnvironment ω).workingDir = "") ∧
    (∀ d next : Environment ω, SetDefaultEnvironment d next = next) ∧
    (∀ (d : Environment ω) (o : List String) (oracle : Cmd ω → ProcBehavior)
        (s : String) (a : List ArgItem),
      Run d o oracle s a = d.Run o oracle s a ∧
      Output d o oracle s a = d.Output o oracle s a) ∧
    (∀ (d next : Environment ω) (o : List String)
        (oracle : Cmd ω → ProcBehavior) (s : String) (a : List ArgItem),
      Run (SetDefaultEnvironment d next) o oracle s a = next.Run o oracle s a ∧
      Output (SetDefaultEnvironment d next) o oracle s a =
        next.Output o oracle s a) :=
  ⟨⟨rfl, rfl, rfl, rfl, rfl⟩, fun _ _ => rfl,
   fun _ _ _ _ _ => ⟨rfl, rfl⟩, fun _ _ _ _ _ _ => ⟨rfl, rfl⟩⟩

/-- C9: on every successful construction the invocation's directory field is
set exactly when the Environment's workingDir is non-empty; an empty
workingDir leaves the field unset so the caller's current directory is
inherited. -/
theorem working_dir_set_iff_nonempty (e : Environment ω) (o : List String)
    (s : String) (a : List ArgItem) (c : Cmd ω)
    (hc : (e.command o s a).2 = .ok c) :
    (c.dir = none ↔ e.workingDir = "") ∧
    (e.workingDir ≠ "" → c.dir = some e.workingDir) := by
  obtain ⟨pairs, hn, hrec⟩ := command_snd_ok_inv e o s a c hc
  subst hrec
  by_cases hd : e.workingDir = ""
  · refine ⟨?_, fun h => absurd hd h⟩
    show (if e.workingDir ≠ "" then some e.workingDir else none) = none ↔ _
    simp [hd]
  · refine ⟨?_, fun _ => ?_⟩
    · show (if e.workingDir ≠ "" then some e.workingDir else none) = none ↔ _
      simp [hd]
    · show (if e.workingDir ≠ "" then some e.workingDir else none) = _
      simp [hd]

/-- Witness for C9 at a concrete input: workingDir "/tmp" is set on the
invocation. -/
theorem working_dir_set_iff_nonempty_witness :
    (({ name := "bash", args := ["-c", "pwd"], dir := some "/tmp", env := [],
        stdout := none, stderr := none } : Cmd Unit).dir = none ↔
      ("/tmp" : String) = "") ∧
    (("/tmp" : String) ≠ "" →
      ({ name := "bash", args := ["-c", "pwd"], dir := some "/tmp", env := [],
         stdout := none, stderr := none } : Cmd Unit).dir = some "/tmp") :=
  working_dir_set_iff_nonempty
    (NewEnvironment Bash [WithWorkingDir "/tmp"] : Environment Unit) [] "pwd" []
    { name := "bash", args := ["-c", "pwd"], dir := some "/tmp", env := [],
      stdout := none, stderr := none }
    rfl

/-- C10: a plain item in key position immediately followed by an ArgumentPair
consumes that pair as its value: the pair is stringified through Arg.String
to Key=Value and exactly one entry key=Key=Value is emitted for the two
items, while the pair contributes no entry of its own. -/
theorem pair_as_value_consumed (k : String) (kv : Arg) (rest : List ArgItem)
    (pairs : List String) (hrest : normalizeArgs rest = .ok pairs) :
    normalizeArgs (ArgItem.plain k :: ArgItem.pair kv :: rest) =
      .ok ((k ++ "=" ++ (kv.Key ++ "=" ++ kv.Value)) :: pairs) ∧
    (ArgItem.pair kv).str = kv.Key ++ "=" ++ kv.Value := by
  refine ⟨?_, rfl⟩
  show (normalizeArgs rest).map _ = _
  rw [hrest]
  rfl

/-- Witness for C10 at a concrete input: plain "k" followed by Arg("K","V")
gives the single entry "k=K=V". -/
theorem pair_as_value_consumed_witness :
    normalizeArgs [ArgItem.plain "k", ArgItem.pair { Key := "K", Value := "V" }] =
      .ok ["k=K=V"] ∧
    (ArgItem.pair { Key := "K", Value := "V" }).str = "K=V" :=
  pair_as_value_consumed "k" { Key := "K", Value := "V" } [] [] rfl
